import Mathlib

/-!
Verification development for the PyMOL AI assistant's streaming tool-call
orchestration core.

The embedding below translates, from the Python sources:
  * `ai_chat_gui.py` — `AIChatWindow._stream_ai_response` (the iterative
    Round Orchestrator: payload building / snapshot normalization, stream
    consumption, tool-call assembly, dispatch, bounded multi-round loop),
    `send_message`, `stop_streaming`;
  * `ai_client.py`  — `AIClient.chat_stream` (the line-oriented SSE decoder
    and its tool-call fragment buffer).

Python JSON values are modelled by `Jval`; `json.loads` by `json_loads`
(a fuel-indexed, hence structurally recursive and kernel-evaluable, JSON
parser) and `json.dumps` by `Jval.dumps`.
-/

/-- A Python JSON value (`json.loads` result).  Numbers are kept as their
source lexeme: no claim depends on numeric value arithmetic. -/
inductive Jval where
  | null : Jval
  | bool : Bool → Jval
  | num : String → Jval
  | str : String → Jval
  | arr : List Jval → Jval
  | obj : List (String × Jval) → Jval

/-- The characters that the banned-free source encoding spells indirectly. -/
def quoteC : Char := Char.ofNat 34

def backslashC : Char := Char.ofNat 92

def lbraceC : Char := Char.ofNat 123

def rbraceC : Char := Char.ofNat 125

def lbraceS : String := String.singleton lbraceC

def rbraceS : String := String.singleton rbraceC

/-- JSON / Python whitespace skipping (`json.loads` ignores it). -/
def skipWs : List Char → List Char
  | [] => []
  | c :: cs => if c = ' ' ∨ c = Char.ofNat 9 ∨ c = Char.ofNat 10 ∨ c = Char.ofNat 13 then skipWs cs else c :: cs

/-- Models `line.startswith(pre)` on the character model (the byte-position
`String.startsWith` does not reduce in the kernel). -/
def startsWithChars : List Char → List Char → Bool
  | [], _ => true
  | _ :: _, [] => false
  | p :: ps, c :: cs => p = c && startsWithChars ps cs

/-- Python `str.strip()` (whitespace at both ends). -/
def pyStrip (s : String) : String :=
  String.mk (((s.data.dropWhile Char.isWhitespace).reverse.dropWhile Char.isWhitespace).reverse)

/-- Models `int(s)` for a nonempty digit string (`none` otherwise). -/
def digitsToNat : List Char → Nat → Option Nat
  | [], acc => some acc
  | c :: cs, acc => if c.isDigit then digitsToNat cs (acc * 10 + (c.toNat - 48)) else none

def strToNat (s : String) : Option Nat :=
  match s.data with
  | [] => none
  | _ => digitsToNat s.data 0

def isHexDigit (c : Char) : Bool :=
  c.isDigit || (('a' ≤ c && c ≤ 'f') || ('A' ≤ c && c ≤ 'F'))

def hexVal (c : Char) : Nat :=
  if c.isDigit then c.toNat - 48
  else if 'a' ≤ c && c ≤ 'f' then c.toNat - 87
  else c.toNat - 55

/-- JSON string body parser (called after the opening quote was consumed). -/
def pString : List Char → Option (String × List Char)
  | [] => none
  | c :: cs =>
    if c = quoteC then some ("", cs)
    else if c = backslashC then
      match cs with
      | [] => none
      | e :: cs2 =>
        let simple : Option Char :=
          if e = quoteC then some quoteC
          else if e = backslashC then some backslashC
          else if e = '/' then some '/'
          else if e = 'b' then some (Char.ofNat 8)
          else if e = 'f' then some (Char.ofNat 12)
          else if e = 'n' then some (Char.ofNat 10)
          else if e = 'r' then some (Char.ofNat 13)
          else if e = 't' then some (Char.ofNat 9)
          else none
        match simple with
        | some ch =>
          match pString cs2 with
          | some (s, r) => some (String.singleton ch ++ s, r)
          | none => none
        | none =>
          if e = 'u' then
            match cs2 with
            | a :: b :: c3 :: d :: cs3 =>
              if isHexDigit a && isHexDigit b && isHexDigit c3 && isHexDigit d then
                match pString cs3 with
                | some (s, r) =>
                  some (String.singleton (Char.ofNat (hexVal a * 4096 + hexVal b * 256 + hexVal c3 * 16 + hexVal d)) ++ s, r)
                | none => none
              else none
            | _ => none
          else none
    else
      match pString cs with
      | some (s, r) => some (String.singleton c ++ s, r)
      | none => none

/-- Longest digit run at the head of the input. -/
def spanDigits : List Char → List Char × List Char
  | [] => ([], [])
  | c :: cs =>
    if c.isDigit then
      let (d, r) := spanDigits cs
      (c :: d, r)
    else ([], c :: cs)

/-- JSON integer part: `0` or a nonzero digit followed by digits. -/
def pIntPart : List Char → Option (List Char × List Char)
  | [] => none
  | c :: cs =>
    if c = '0' then some ([c], cs)
    else if c.isDigit then
      let (d, r) := spanDigits cs
      some (c :: d, r)
    else none

def pFracPart (cs : List Char) : List Char × List Char :=
  match cs with
  | '.' :: cs2 =>
    match spanDigits cs2 with
    | ([], _) => ([], cs)
    | (d, r) => ('.' :: d, r)
  | _ => ([], cs)

def pExpPart (cs : List Char) : List Char × List Char :=
  match cs with
  | e :: cs2 =>
    if e = 'e' ∨ e = 'E' then
      match cs2 with
      | s :: cs3 =>
        if s = '+' ∨ s = '-' then
          match spanDigits cs3 with
          | ([], _) => ([], cs)
          | (d, r) => (e :: s :: d, r)
        else
          match spanDigits cs2 with
          | ([], _) => ([], cs)
          | (d, r) => (e :: d, r)
      | [] => ([], cs)
    else ([], cs)
  | [] => ([], cs)

/-- JSON number parser; keeps the lexeme. -/
def pNumber (cs : List Char) : Option (String × List Char) :=
  let (sign, cs1) :=
    match cs with
    | '-' :: r => (['-'], r)
    | _ => ([], cs)
  match pIntPart cs1 with
  | none => none
  | some (ip, cs2) =>
    let (fp, cs3) := pFracPart cs2
    let (ep, cs4) := pExpPart cs3
    some (String.mk (sign ++ ip ++ fp ++ ep), cs4)

/-- Fuel-indexed JSON parser.  `mode = 0` parses one value; `mode = 1`
parses the element list of an array just after `[` (so `]` is allowed);
`mode = 3` parses the element list after a `,` (an element is required);
`mode = 2`/`mode = 4` are the analogous object-member modes after the
opening brace / after a `,`.  Structural recursion on the fuel keeps the
definition kernel-evaluable. -/
def pRun : Nat → Nat → List Char → Option (Jval × List Char)
  | 0, _, _ => none
  | Nat.succ f, mode, cs =>
    if mode = 1 ∨ mode = 3 then
      match skipWs cs with
      | [] => none
      | c :: rest =>
        if mode = 1 ∧ c = ']' then some (Jval.arr [], rest)
        else
          match pRun f 0 (c :: rest) with
          | none => none
          | some (v, cs2) =>
            match skipWs cs2 with
            | ',' :: cs3 =>
              match pRun f 3 cs3 with
              | some (Jval.arr vs, r) => some (Jval.arr (v :: vs), r)
              | _ => none
            | ']' :: cs3 => some (Jval.arr [v], cs3)
            | _ => none
    else if mode = 2 ∨ mode = 4 then
      match skipWs cs with
      | [] => none
      | c :: rest =>
        if mode = 2 ∧ c = rbraceC then some (Jval.obj [], rest)
        else if c = quoteC then
          match pString rest with
          | none => none
          | some (k, cs2) =>
            match skipWs cs2 with
            | ':' :: cs3 =>
              match pRun f 0 cs3 with
              | none => none
              | some (v, cs4) =>
                match skipWs cs4 with
                | ',' :: cs5 =>
                  match pRun f 4 cs5 with
                  | some (Jval.obj ms, r) => some (Jval.obj ((k, v) :: ms), r)
                  | _ => none
                | c6 :: cs6 =>
                  if c6 = rbraceC then some (Jval.obj [(k, v)], cs6) else none
                | _ => none
            | _ => none
        else none
    else
      match skipWs cs with
      | [] => none
      | c :: rest =>
        if c = lbraceC then pRun f 2 rest
        else if c = '[' then pRun f 1 rest
        else if c = quoteC then
          match pString rest with
          | some (s, r) => some (Jval.str s, r)
          | none => none
        else if c = 't' then
          match rest with
          | 'r' :: 'u' :: 'e' :: r => some (Jval.bool true, r)
          | _ => none
        else if c = 'f' then
          match rest with
          | 'a' :: 'l' :: 's' :: 'e' :: r => some (Jval.bool false, r)
          | _ => none
        else if c = 'n' then
          match rest with
          | 'u' :: 'l' :: 'l' :: r => some (Jval.null, r)
          | _ => none
        else
          match pNumber (c :: rest) with
          | some (s, r) => some (Jval.num s, r)
          | none => none

/-- Models `json.loads`: parse a complete JSON document, requiring only trailing
whitespace after the value (Python raises `JSONDecodeError` → `none`). -/
def json_loads (s : String) : Option Jval :=
  match pRun (2 * s.length + 4) 0 s.data with
  | some (v, rest) => if (skipWs rest).isEmpty then some v else none
  | none => none

/-- Models `json.dumps` string escaping (quote, backslash and the common control
characters; `ensure_ascii=False` keeps everything else verbatim). -/
def escChar (c : Char) : String :=
  if c = quoteC then String.singleton backslashC ++ String.singleton quoteC
  else if c = backslashC then String.singleton backslashC ++ String.singleton backslashC
  else if c = Char.ofNat 10 then String.singleton backslashC ++ "n"
  else if c = Char.ofNat 13 then String.singleton backslashC ++ "r"
  else if c = Char.ofNat 9 then String.singleton backslashC ++ "t"
  else String.singleton c

def escapeStr (s : String) : String := String.join (s.data.map escChar)

/-- Models `json.dumps` with the default separators (`", "`, `": "`). -/
def Jval.dumps : Jval → String
  | Jval.null => "null"
  | Jval.bool true => "true"
  | Jval.bool false => "false"
  | Jval.num s => s
  | Jval.str s => String.singleton quoteC ++ escapeStr s ++ String.singleton quoteC
  | Jval.arr xs =>
    "[" ++ String.intercalate ", " (xs.attach.map (fun x => Jval.dumps x.1)) ++ "]"
  | Jval.obj ms =>
    lbraceS ++
      String.intercalate ", "
        (ms.attach.map (fun kv =>
          String.singleton quoteC ++ escapeStr kv.1.1 ++ String.singleton quoteC ++ ": " ++ Jval.dumps kv.1.2)) ++
      rbraceS
termination_by j => sizeOf j
decreasing_by
  · have h1 : sizeOf x.1 < sizeOf xs := List.sizeOf_lt_of_mem x.2
    simp only [Jval.arr.sizeOf_spec]
    omega
  · have h1 : sizeOf kv.1 ≤ sizeOf ms := le_of_lt (List.sizeOf_lt_of_mem kv.2)
    have h2 : sizeOf kv.1.2 < sizeOf kv.1 := by
      obtain ⟨a, b⟩ := kv.1
      simp only [Prod.mk.sizeOf_spec]
      omega
    simp only [Jval.obj.sizeOf_spec]
    omega

/-- Models `dict.get(k)` on a JSON object (`none` for a non-dict or missing key). -/
def jGet (j : Jval) (k : String) : Option Jval :=
  match j with
  | Jval.obj ms => ms.lookup k
  | _ => none

/-- Extract a Python `str` value. -/
def jStrOf : Jval → Option String
  | Jval.str s => some s
  | _ => none

/-- Models `d.get(k, default)` for string-valued fields. -/
def jStrD (j : Jval) (k : String) (dflt : String) : String :=
  ((jGet j k).bind jStrOf).getD dflt

/-- Extract a small natural number (for `tc.get('index', 0)`). -/
def jNatOf : Jval → Option Nat
  | Jval.num s => strToNat s
  | _ => none

/-! ## Conversation data model (`ai_chat_gui.py`)

A chat-history entry is a Python dict; the keys actually used by
`AIChatWindow` are `role`, `content`, `reasoning_content`, `tool_calls`
and `tool_call_id`.  `Option` distinguishes an absent key from a present
one (the source tests key presence with `in`). -/

inductive Role where
  | system
  | user
  | assistant
  | tool
deriving DecidableEq, Repr

/-- One entry of an assistant message's `tool_calls` list:
`{"id": ..., "type": "function", "function": {"name": ..., "arguments": ...}}`
(`type` is the constant `"function"` everywhere in the source, so it is
not carried). -/
structure ToolCallRec where
  id : String
  name : String
  arguments : String
deriving DecidableEq, Repr

structure Message where
  role : Role
  content : Option String
  reasoning_content : Option String
  tool_calls : Option (List ToolCallRec)
  tool_call_id : Option String
deriving DecidableEq, Repr

def Message.user (text : String) : Message :=
  { role := Role.user, content := some text, reasoning_content := none,
    tool_calls := none, tool_call_id := none }

/-- The system prompt constant returned by `AIChatWindow._get_system_prompt`.
Only its role placement matters to the claims; the (long, Chinese) text is
abbreviated to its first line. -/
def system_prompt : String := "你是一个 PyMOL 分子可视化助手。你可以使用工具来控制 PyMOL 软件。"

/-- Outbound normalization of one stored message, from the per-message body
of the payload loop (`ai_chat_gui.py` lines 1229–1240): every assistant
message gets a `reasoning_content` default, and an assistant message that
has `tool_calls` but no `content` key gets an empty `content`.  Applied to
a deep copy; the stored message itself is untouched. -/
def normalizeReasoning (m : Message) : Message :=
  if m.reasoning_content.isNone then { m with reasoning_content := some "" } else m

def normalizeContent (m : Message) : Message :=
  if m.content.isNone ∧ m.tool_calls.isSome then { m with content := some "" } else m

def normalizeMsg (m : Message) : Message :=
  if m.role = Role.assistant then normalizeContent (normalizeReasoning m) else m

def systemMessage : Message :=
  { role := Role.system, content := some system_prompt, reasoning_content := none,
    tool_calls := none, tool_call_id := none }

/-- The outbound `messages` payload: the normalized copies of the stored
history with the system prompt inserted at position 0
(`ai_chat_gui.py` lines 1226–1244). -/
def buildPayload (hist : List Message) : List Message :=
  systemMessage :: hist.map normalizeMsg

/-! ## Stream deltas and the tool-call assembler (GUI variant)

`_stream_ai_response` consumes SDK-decoded chunks.  Python truthiness tests
(`if delta.content:` etc.) conflate `None` and `""`, so absent fields are
modelled as `""`. -/

structure ToolCallDelta where
  index : Nat
  id : String
  name : String
  arguments : String
deriving DecidableEq, Repr

structure Delta where
  content : String
  reasoning_content : String
  tool_calls : List ToolCallDelta
deriving DecidableEq, Repr

/-- One slot of `tool_calls_data`: `{"id": "", "name": "", "arguments": ""}`. -/
structure ToolCallData where
  id : String
  name : String
  arguments : String
deriving DecidableEq, Repr

def ToolCallData.empty : ToolCallData := { id := "", name := "", arguments := "" }

/-- Models `while len(tool_calls_data) <= index: tool_calls_data.append({...})`. -/
def padTo (l : List ToolCallData) (n : Nat) : List ToolCallData :=
  if l.length ≤ n then l ++ List.replicate (n + 1 - l.length) ToolCallData.empty else l

/-- Ingest one tool-call delta (`ai_chat_gui.py` lines 1288–1303): the slot
at `tc.index` is created on first sight; a nonempty `id` or `name`
fragment *replaces* the stored value, while `arguments` fragments are
*concatenated*. -/
def guiIngestTC (l : List ToolCallData) (tc : ToolCallDelta) : List ToolCallData :=
  let l1 := padTo l tc.index
  let cur := l1.getD tc.index ToolCallData.empty
  let cur1 := if tc.id ≠ "" then { cur with id := tc.id } else cur
  let cur2 := if tc.name ≠ "" then { cur1 with name := tc.name } else cur1
  let cur3 := if tc.arguments ≠ "" then { cur2 with arguments := cur2.arguments ++ tc.arguments } else cur2
  l1.set tc.index cur3

/-- Accumulated state of one streaming round (`full_content`,
`full_reasoning`, `tool_calls_data`). -/
structure StreamAcc where
  full_content : String
  full_reasoning : String
  tool_calls_data : List ToolCallData
deriving DecidableEq, Repr

def StreamAcc.init : StreamAcc := { full_content := "", full_reasoning := "", tool_calls_data := [] }

/-- Event Sink callbacks of the GUI orchestrator (`_on_stream_content`,
`_on_tool_call`, `_on_tool_result`, `_on_stream_complete`,
`_on_stream_error`). -/
inductive Event where
  | content : String → Event
  | reasoning : String → Event
  | toolCall : String → Jval → Event
  | toolResult : String → Jval → Event
  | streamComplete : Event
  | streamError : String → Event

/-- Models `if delta.content: full_content += content; self._on_stream_content(...)`. -/
def applyContent (d : Delta) (st : StreamAcc × List Event) : StreamAcc × List Event :=
  if d.content ≠ "" then
    ({ st.1 with full_content := st.1.full_content ++ d.content }, st.2 ++ [Event.content d.content])
  else st

/-- Models `if ... delta.reasoning_content: full_reasoning += reasoning; ...`. -/
def applyReasoning (d : Delta) (st : StreamAcc × List Event) : StreamAcc × List Event :=
  if d.reasoning_content ≠ "" then
    ({ st.1 with full_reasoning := st.1.full_reasoning ++ d.reasoning_content },
      st.2 ++ [Event.reasoning d.reasoning_content])
  else st

/-- Models `if delta.tool_calls: for tc in delta.tool_calls: ...`. -/
def applyToolDeltas (d : Delta) (st : StreamAcc × List Event) : StreamAcc × List Event :=
  ({ st.1 with tool_calls_data := d.tool_calls.foldl guiIngestTC st.1.tool_calls_data }, st.2)

/-- Process one decoded chunk (`async for chunk in response`, lines
1272–1303): forward content/reasoning fragments to the Event Sink and
route tool-call deltas to the assembler. -/
def applyDelta (st : StreamAcc × List Event) (d : Delta) : StreamAcc × List Event :=
  applyToolDeltas d (applyReasoning d (applyContent d st))

/-! ## Dispatch (`ai_chat_gui.py` lines 1321–1409) -/

/-- The synthesized result for a tool call whose argument JSON fails to
parse at dispatch time: `{"success": False, "message": error_msg}`.  The
Python `error_msg` interpolates the `JSONDecodeError` text; the embedding
keeps a fixed description. -/
def parseErrorResult : Jval :=
  Jval.obj [("success", Jval.bool false), ("message", Jval.str "参数解析失败: invalid JSON")]

/-- Working state of the dispatch phase: tool-role messages appended to the
history, the `tool_calls_for_history` list, emitted events, and the actual
Tool Executor invocations. -/
structure DispatchSt where
  msgs : List Message
  tch : List ToolCallRec
  events : List Event
  calls : List (String × Jval)

def DispatchSt.init : DispatchSt := { msgs := [], tch := [], events := [], calls := [] }

def toolMessage (id : String) (body : String) : Message :=
  { role := Role.tool, content := some body, reasoning_content := none,
    tool_calls := none, tool_call_id := some id }

/-- Dispatch one assembled tool call (`for tool_call in tool_calls_data`):
slots with an empty name or empty argument text are skipped outright;
otherwise the argument text is parsed — on success the executor runs and
its result is appended as a tool message, on `JSONDecodeError` a failed
result is synthesized and appended instead (the executor is *not* run).
The Tool Executor is a total function, per its §4.5 contract (`execute_tool`
catches its own faults). -/
def dispatchOne (ex : String → Jval → Jval) (st : DispatchSt) (tc : ToolCallData) : DispatchSt :=
  if tc.name ≠ "" ∧ tc.arguments ≠ "" then
    match json_loads tc.arguments with
    | some args =>
      let result := ex tc.name args
      { msgs := st.msgs ++ [toolMessage tc.id result.dumps],
        tch := st.tch ++ [{ id := tc.id, name := tc.name, arguments := tc.arguments }],
        events := st.events ++ [Event.toolCall tc.name args, Event.toolResult tc.name result],
        calls := st.calls ++ [(tc.name, args)] }
    | none =>
      { msgs := st.msgs ++ [toolMessage tc.id parseErrorResult.dumps],
        tch := st.tch ++ [{ id := tc.id, name := tc.name, arguments := tc.arguments }],
        events := st.events ++ [Event.toolResult tc.name parseErrorResult],
        calls := st.calls }
  else st

/-- The assistant message recording the round's tool calls, appended after
all tool-result messages (lines 1397–1409).  `reasoning_content` is
`full_reasoning if full_reasoning else ""`, which equals `full_reasoning`;
`content` is added only when `full_content` is nonempty. -/
def assistantToolMsg (acc : StreamAcc) (tch : List ToolCallRec) : Message :=
  { role := Role.assistant,
    content := if acc.full_content ≠ "" then some acc.full_content else none,
    reasoning_content := some acc.full_reasoning,
    tool_calls := some tch,
    tool_call_id := none }

def assistantFinalMsg (acc : StreamAcc) : Message :=
  { role := Role.assistant,
    content := some acc.full_content,
    reasoning_content := some acc.full_reasoning,
    tool_calls := none,
    tool_call_id := none }

structure RoundOut where
  hist : List Message
  events : List Event
  calls : List (String × Jval)
  looped : Bool

/-- One round of `_stream_ai_response`: build the payload, stream the
response, then either append the final assistant message and stop
(`if not tool_calls_data: ... break`) or dispatch the assembled calls,
append their tool messages, append the assistant `tool_calls` message,
and loop. -/
def runRound (model : List Message → List Delta) (ex : String → Jval → Jval)
    (hist : List Message) : RoundOut :=
  let deltas := model (buildPayload hist)
  let streamed := deltas.foldl applyDelta (StreamAcc.init, [])
  let acc := streamed.1
  let sevents := streamed.2
  if acc.tool_calls_data.isEmpty then
    let hist1 := if acc.full_content ≠ "" then hist ++ [assistantFinalMsg acc] else hist
    { hist := hist1, events := sevents, calls := [], looped := false }
  else
    let dst := acc.tool_calls_data.foldl (dispatchOne ex) DispatchSt.init
    let hist1 := hist ++ dst.msgs
    let hist2 := if dst.tch.isEmpty then hist1 else hist1 ++ [assistantToolMsg acc dst.tch]
    { hist := hist2, events := sevents ++ dst.events, calls := dst.calls, looped := true }

structure TurnResult where
  history : List Message
  events : List Event
  rounds : Nat

/-- The bounded iterate-until-no-tool-calls loop
(`while iteration < max_iterations`), with the remaining fuel
`max_iterations - iteration` as the recursion measure;
`_on_stream_complete` fires when the loop ends, on either exit path. -/
def streamLoop (model : List Message → List Delta) (ex : String → Jval → Jval) :
    Nat → List Message → List Event → Nat → TurnResult
  | 0, hist, evs, rounds => { history := hist, events := evs ++ [Event.streamComplete], rounds := rounds }
  | Nat.succ fuel, hist, evs, rounds =>
    let out := runRound model ex hist
    if out.looped then
      streamLoop model ex fuel out.hist (evs ++ out.events) (rounds + 1)
    else
      { history := out.hist, events := evs ++ out.events ++ [Event.streamComplete], rounds := rounds + 1 }

/-- Models `max_iterations = 10` (`ai_chat_gui.py` line 1219). -/
def max_iterations : Nat := 10

/-- One user turn of the orchestrator (`_stream_ai_response`). -/
def runTurn (model : List Message → List Delta) (ex : String → Jval → Jval)
    (hist : List Message) : TurnResult :=
  streamLoop model ex max_iterations hist [] 0

/-! ## The window state around the loop (`send_message`, `stop_streaming`,
`_finish_stream`) -/

structure WindowState where
  chat_history : List Message
  is_streaming : Bool
  send_btn_enabled : Bool
  stop_btn_visible : Bool
  status : String
deriving DecidableEq, Repr

/-- Models `send_message` + `start_streaming_response`: guarded by the busy flag
and the nonempty check, appends the user message and marks the turn in
flight.  (The config-missing early return is not modelled: a configuration
is assumed selected.) -/
def send_message (s : WindowState) (text : String) : WindowState :=
  if s.is_streaming then s
  else if pyStrip text = "" then s
  else
    { s with chat_history := s.chat_history ++ [Message.user (pyStrip text)],
             is_streaming := true, send_btn_enabled := false,
             stop_btn_visible := true, status := "thinking" }

/-- Models `stop_streaming` (`ai_chat_gui.py` lines 1543–1553): the cancellation
signal.  It resets the busy flag and the UI state and touches nothing
else — in particular it never reads or writes `chat_history`, and no other
code of `_stream_ai_response` ever reads `is_streaming`. -/
def stop_streaming (s : WindowState) : WindowState :=
  if s.is_streaming then
    { s with is_streaming := false, send_btn_enabled := true,
             stop_btn_visible := false, status := "已停止" }
  else s

/-- Models `_run_ai_stream` + `_finish_stream`: run the whole turn on the window
state, then reset the busy flag and UI.  The orchestration reads only
`chat_history` from the state: the cancellation flag is never consulted. -/
def run_turn_window (model : List Message → List Delta) (ex : String → Jval → Jval)
    (s : WindowState) : WindowState :=
  let r := runTurn model ex s.chat_history
  { s with chat_history := r.history, is_streaming := false,
           send_btn_enabled := true, stop_btn_visible := false, status := "ready" }

/-! ## The SSE stream decoder of `AIClient.chat_stream` (`ai_client.py`
lines 145–222)

The transport hands over decoded text lines; the loop skips blank lines,
strips the `data: ` prefix, stops at the `[DONE]` sentinel, parses each
remaining line as JSON, and skips lines that fail to parse
(`except json.JSONDecodeError: continue`).  Any other per-line fault is
reported through `on_error` and the loop continues. -/

/-- One slot of `tool_calls_buffer` (a dict keyed by delta index). -/
structure ClientBufEntry where
  id : String
  typ : String
  name : String
  arguments : String
deriving DecidableEq, Repr

def ClientBufEntry.default0 : ClientBufEntry := { id := "", typ := "function", name := "", arguments := "" }

/-- Models `StreamState` of one `chat_stream` round: the accumulation buffers and
the insertion-ordered `tool_calls_buffer`. -/
structure ClientState where
  tool_calls_buffer : List (Nat × ClientBufEntry)
  content_buffer : String
  thinking_buffer : String
  is_thinking : Bool
deriving DecidableEq, Repr

def ClientState.init : ClientState :=
  { tool_calls_buffer := [], content_buffer := "", thinking_buffer := "", is_thinking := false }

/-- Models `chat_stream` callbacks: `on_thinking(text, is_end)`,
`on_content(text, is_end)`, `on_error(msg)`. -/
inductive CEvent where
  | thinking : String → Bool → CEvent
  | content : String → Bool → CEvent
  | error : String → CEvent
deriving DecidableEq, Repr

/-- Replace the entry at a key of an insertion-ordered association list. -/
def assocSet (l : List (Nat × ClientBufEntry)) (k : Nat) (v : ClientBufEntry) :
    List (Nat × ClientBufEntry) :=
  l.map (fun kv => if kv.1 = k then (k, v) else kv)

/-- Ingest one element of a `tool_calls` delta list (`ai_client.py` lines
195–209): the buffer slot is created on first sight of the index, and both
the `name` and the `arguments` fragments are *concatenated*. -/
def clientIngestTC (buf : List (Nat × ClientBufEntry)) (tc : Jval) : List (Nat × ClientBufEntry) :=
  let index := ((jGet tc "index").bind jNatOf).getD 0
  let buf1 :=
    if (buf.lookup index).isNone then
      buf ++ [(index, { id := jStrD tc "id" "", typ := jStrD tc "type" "function",
                        name := "", arguments := "" })]
    else buf
  match jGet tc "function" with
  | some f =>
    let entry := (buf1.lookup index).getD ClientBufEntry.default0
    let entry1 :=
      match (jGet f "name").bind jStrOf with
      | some n => { entry with name := entry.name ++ n }
      | none => entry
    let entry2 :=
      match (jGet f "arguments").bind jStrOf with
      | some a => { entry1 with arguments := entry1.arguments ++ a }
      | none => entry1
    assocSet buf1 index entry2
  | none => buf1

/-- Models `chunk.get('choices', [{}])[0].get('delta', {})` — `none` models the
`except Exception` path (for example `IndexError` on an empty `choices`
list), which reports `on_error` and continues. -/
def extractDelta (chunk : Jval) : Option Jval :=
  match jGet chunk "choices" with
  | none => some (Jval.obj [])
  | some (Jval.arr (c :: _)) =>
    match c with
    | Jval.obj _ => some ((jGet c "delta").getD (Jval.obj []))
    | _ => none
  | some _ => none

/-- The content fragment a parsed chunk delivers:
`delta.get('content', '')` (with `""` for a non-string value, which the
truthiness test treats the same as absent). -/
def chunkContent (chunk : Jval) : String :=
  match extractDelta chunk with
  | some delta => ((jGet delta "content").bind jStrOf).getD ""
  | none => ""

/-- Models `reasoning = delta.get('reasoning_content') or delta.get('reasoning')`
with Python truthiness (`""` and `None` both falsy). -/
def chunkReasoningOf (delta : Jval) : String :=
  let r1 := ((jGet delta "reasoning_content").bind jStrOf).getD ""
  if r1 ≠ "" then r1 else ((jGet delta "reasoning").bind jStrOf).getD ""

/-- The reasoning branch of the chunk handler (`if self.is_reasoning_model: ...`). -/
def applyChunkReasoning (irm : Bool) (delta : Jval) (st : ClientState × List CEvent) :
    ClientState × List CEvent :=
  let reasoning := chunkReasoningOf delta
  if irm ∧ reasoning ≠ "" then
    let st1 := if ¬ st.1.is_thinking then { st.1 with is_thinking := true, thinking_buffer := "" } else st.1
    ({ st1 with thinking_buffer := st1.thinking_buffer ++ reasoning },
      st.2 ++ [CEvent.thinking reasoning false])
  else st

/-- The content branch (`content = delta.get('content', '')`). -/
def applyChunkContent (delta : Jval) (st : ClientState × List CEvent) : ClientState × List CEvent :=
  let content := ((jGet delta "content").bind jStrOf).getD ""
  if content ≠ "" then
    let st1 :=
      if st.1.is_thinking ∧ st.1.thinking_buffer ≠ "" then
        ({ st.1 with is_thinking := false }, st.2 ++ [CEvent.thinking "" true])
      else (st.1, st.2)
    ({ st1.1 with content_buffer := st1.1.content_buffer ++ content },
      st1.2 ++ [CEvent.content content false])
  else st

/-- The tool-call branch (`tool_calls = delta.get('tool_calls')`). -/
def applyChunkTools (delta : Jval) (st : ClientState × List CEvent) : ClientState × List CEvent :=
  match jGet delta "tool_calls" with
  | some (Jval.arr tcs) =>
    if tcs.isEmpty then st
    else ({ st.1 with tool_calls_buffer := tcs.foldl clientIngestTC st.1.tool_calls_buffer }, st.2)
  | _ => st

/-- Process one successfully parsed chunk (`ai_client.py` lines 164–209):
reasoning fragments (only when `is_reasoning_model`), content fragments,
then the tool-call deltas into the buffer. -/
def applyChunk (irm : Bool) (st : ClientState) (chunk : Jval) : ClientState × List CEvent :=
  match extractDelta chunk with
  | none => (st, [CEvent.error "delta extraction failed"])
  | some delta => applyChunkTools delta (applyChunkContent delta (applyChunkReasoning irm delta (st, [])))

/-- Models `if line.startswith('data: '): line = line[6:]`. -/
def stripData (l : String) : String :=
  if startsWithChars "data: ".data l.data then String.mk (l.data.drop 6) else l

/-- The line loop of `chat_stream` (`for line in response.iter_lines()`).
Returns the final state, the emitted events, and the lines left unread
after a `[DONE]` break (`[]` when the stream closed). -/
def decodeLoop (irm : Bool) (st : ClientState) : List String → ClientState × List CEvent × List String
  | [] => (st, [], [])
  | l :: rest =>
    if l = "" then decodeLoop irm st rest
    else
      let l1 := stripData l
      if l1 = "[DONE]" then (st, [], rest)
      else
        match json_loads l1 with
        | none => decodeLoop irm st rest
        | some chunk =>
          let stepped := applyChunk irm st chunk
          let tail := decodeLoop irm stepped.1 rest
          (tail.1, stepped.2 ++ tail.2.1, tail.2.2)

/-- A line the decoder skips without effect: blank, an SSE comment, or
malformed JSON (and not the `[DONE]` sentinel). -/
def skippableLine (l : String) : Prop :=
  l = "" ∨ (stripData l ≠ "[DONE]" ∧ json_loads (stripData l) = none)

/-! ## Helper lemmas about the orchestration loop -/

theorem streamLoop_rounds_le (model : List Message → List Delta) (ex : String → Jval → Jval) :
    ∀ (fuel : Nat) (hist : List Message) (evs : List Event) (r : Nat),
      (streamLoop model ex fuel hist evs r).rounds ≤ r + fuel := by
  intro fuel
  induction fuel with
  | zero => intro hist evs r; simp [streamLoop]
  | succ f ih =>
    intro hist evs r
    simp only [streamLoop]
    split
    · exact le_trans (ih _ _ _) (by omega)
    · show r + 1 ≤ r + (f + 1)
      omega

theorem runRound_hist_extends (model : List Message → List Delta) (ex : String → Jval → Jval)
    (hist : List Message) : ∃ t, (runRound model ex hist).hist = hist ++ t := by
  simp only [runRound]
  split
  · split
    · exact ⟨_, rfl⟩
    · exact ⟨[], by simp⟩
  · split
    · exact ⟨_, rfl⟩
    · exact ⟨_, (List.append_assoc _ _ _)⟩

theorem streamLoop_hist_extends (model : List Message → List Delta) (ex : String → Jval → Jval) :
    ∀ (fuel : Nat) (hist : List Message) (evs : List Event) (r : Nat),
      ∃ t, (streamLoop model ex fuel hist evs r).history = hist ++ t := by
  intro fuel
  induction fuel with
  | zero => intro hist evs r; exact ⟨[], by simp [streamLoop]⟩
  | succ f ih =>
    intro hist evs r
    simp only [streamLoop]
    split
    · obtain ⟨t1, h1⟩ := runRound_hist_extends model ex hist
      obtain ⟨t2, h2⟩ := ih (runRound model ex hist).hist (evs ++ (runRound model ex hist).events) (r + 1)
      exact ⟨t1 ++ t2, by rw [h2, h1, List.append_assoc]⟩
    · exact runRound_hist_extends model ex hist

theorem normalizeMsg_role (m : Message) : (normalizeMsg m).role = m.role := by
  simp only [normalizeMsg, normalizeContent, normalizeReasoning]
  split_ifs <;> rfl

theorem normalizeMsg_content_some (m : Message) (c : String) (h : m.content = some c) :
    (normalizeMsg m).content = some c := by
  simp only [normalizeMsg, normalizeContent, normalizeReasoning]
  split_ifs <;> simp_all

theorem normalizeMsg_reasoning_some (m : Message) (rc : String) (h : m.reasoning_content = some rc) :
    (normalizeMsg m).reasoning_content = some rc := by
  simp only [normalizeMsg, normalizeContent, normalizeReasoning]
  split_ifs <;> simp_all

theorem normalizeMsg_tool_calls (m : Message) : (normalizeMsg m).tool_calls = m.tool_calls := by
  simp only [normalizeMsg, normalizeContent, normalizeReasoning]
  split_ifs <;> rfl

theorem normalizeMsg_idem (m : Message) : normalizeMsg (normalizeMsg m) = normalizeMsg m := by
  rcases m with ⟨role, mc, mrc, tcs, tid⟩
  rcases role <;> rcases mc <;> rcases mrc <;> rcases tcs <;>
    simp [normalizeMsg, normalizeContent, normalizeReasoning]

theorem dispatchOne_pairing (ex : String → Jval → Jval) (st : DispatchSt) (tc : ToolCallData)
    (h : st.msgs.map Message.tool_call_id = st.tch.map (fun e => some e.id)) :
    (dispatchOne ex st tc).msgs.map Message.tool_call_id =
      (dispatchOne ex st tc).tch.map (fun e => some e.id) := by
  unfold dispatchOne
  split
  · split <;> simp [toolMessage, h]
  · exact h

theorem dispatch_fold_pairing (ex : String → Jval → Jval) (l : List ToolCallData) :
    ∀ st : DispatchSt, st.msgs.map Message.tool_call_id = st.tch.map (fun e => some e.id) →
      (l.foldl (dispatchOne ex) st).msgs.map Message.tool_call_id =
        (l.foldl (dispatchOne ex) st).tch.map (fun e => some e.id) := by
  induction l with
  | nil => intro st h; exact h
  | cons tc rest ih => intro st h; exact ih _ (dispatchOne_pairing ex st tc h)

theorem dispatchOne_roles (ex : String → Jval → Jval) (st : DispatchSt) (tc : ToolCallData)
    (h : ∀ m ∈ st.msgs, m.role = Role.tool) :
    ∀ m ∈ (dispatchOne ex st tc).msgs, m.role = Role.tool := by
  unfold dispatchOne
  split
  · split <;> intro m hm <;> rcases List.mem_append.mp hm with hm1 | hm1
    · exact h m hm1
    · simp only [List.mem_singleton] at hm1; subst hm1; rfl
    · exact h m hm1
    · simp only [List.mem_singleton] at hm1; subst hm1; rfl
  · exact h

theorem dispatch_fold_roles (ex : String → Jval → Jval) (l : List ToolCallData) :
    ∀ st : DispatchSt, (∀ m ∈ st.msgs, m.role = Role.tool) →
      ∀ m ∈ (l.foldl (dispatchOne ex) st).msgs, m.role = Role.tool := by
  induction l with
  | nil => intro st h; exact h
  | cons tc rest ih => intro st h; exact ih _ (dispatchOne_roles ex st tc h)

/-- The `StreamAcc` a round accumulates before dispatch. -/
def roundAcc (model : List Message → List Delta) (hist : List Message) : StreamAcc :=
  ((model (buildPayload hist)).foldl applyDelta (StreamAcc.init, [])).1

/-- The dispatch outcome of a round. -/
def roundDispatch (model : List Message → List Delta) (ex : String → Jval → Jval)
    (hist : List Message) : DispatchSt :=
  (roundAcc model hist).tool_calls_data.foldl (dispatchOne ex) DispatchSt.init

theorem runRound_roles (model : List Message → List Delta) (ex : String → Jval → Jval)
    (hist : List Message) :
    ∀ m ∈ (runRound model ex hist).hist, m ∈ hist ∨ m.role = Role.assistant ∨ m.role = Role.tool := by
  simp only [runRound]
  split
  · split
    · intro m hm
      rcases List.mem_append.mp hm with hm1 | hm1
      · exact Or.inl hm1
      · simp only [List.mem_singleton] at hm1; subst hm1; exact Or.inr (Or.inl rfl)
    · intro m hm; exact Or.inl hm
  · split
    · intro m hm
      rcases List.mem_append.mp hm with hm1 | hm1
      · exact Or.inl hm1
      · exact Or.inr (Or.inr (dispatch_fold_roles ex _ DispatchSt.init (by intro x hx; cases hx) m hm1))
    · intro m hm
      rcases List.mem_append.mp hm with hm1 | hm1
      · rcases List.mem_append.mp hm1 with hm2 | hm2
        · exact Or.inl hm2
        · exact Or.inr (Or.inr (dispatch_fold_roles ex _ DispatchSt.init (by intro x hx; cases hx) m hm2))
      · simp only [List.mem_singleton] at hm1; subst hm1; exact Or.inr (Or.inl rfl)

/-- No operation of the orchestrator ever appends a system-role message. -/
def noSystem (h : List Message) : Prop := ∀ m ∈ h, m.role ≠ Role.system

theorem streamLoop_noSystem (model : List Message → List Delta) (ex : String → Jval → Jval) :
    ∀ (fuel : Nat) (hist : List Message) (evs : List Event) (r : Nat), noSystem hist →
      noSystem ((streamLoop model ex fuel hist evs r).history) := by
  intro fuel
  induction fuel with
  | zero => intro hist evs r h; simpa [streamLoop] using h
  | succ f ih =>
    intro hist evs r h
    have hr : noSystem ((runRound model ex hist).hist) := by
      intro m hm
      rcases runRound_roles model ex hist m hm with hm1 | hm1 | hm1
      · exact h m hm1
      · rw [hm1]; intro hcon; cases hcon
      · rw [hm1]; intro hcon; cases hcon
    simp only [streamLoop]
    split
    · exact ih _ _ _ hr
    · exact hr

/-! ## Concrete scenarios shared by witnesses and counterexamples -/

/-- A Tool Executor reporting success, in the §4.5 contract shape. -/
def exampleExec : String → Jval → Jval :=
  fun _ _ => Jval.obj [("success", Jval.bool true), ("message", Jval.str "ok")]

/-- A delta carrying one complete tool call. -/
def toolDelta : Delta :=
  { content := "", reasoning_content := "",
    tool_calls := [{ index := 0, id := "call_1", name := "pymol_show", arguments := "\x7b\x7d" }] }

/-- A delta carrying plain content. -/
def textDelta : Delta := { content := "done", reasoning_content := "", tool_calls := [] }

/-- A model that requests one tool call on the first round (payload:
system + user message) and answers with plain content afterwards. -/
def twoRoundModel : List Message → List Delta :=
  fun msgs => if msgs.length ≤ 2 then [toolDelta] else [textDelta]

/-- A window state with a turn in flight. -/
def streamingWindow : WindowState :=
  { chat_history := [Message.user "hi"], is_streaming := true,
    send_btn_enabled := false, stop_btn_visible := true, status := "thinking" }

/-- The history produced by a user turn under `twoRoundModel`. -/
def exampleHistory : List Message := (runTurn twoRoundModel exampleExec [Message.user "hi"]).history

/-- Counting the *earlier* assistant messages whose `tool_calls` carry a
given call id (the quantity C1 claims is exactly 1 for each tool message). -/
def earlierAssistantMatches (h : List Message) (i : Nat) (cid : String) : Nat :=
  (h.take i).countP
    (fun m => decide (m.role = Role.assistant ∧ cid ∈ (m.tool_calls.getD []).map ToolCallRec.id))

/-! ## The claims -/

/-- Claim C1, counterexample.  Running a turn in which the model issues one
tool call (then finishes) yields the history
`[user, tool(call_1), assistant(tool_calls = [call_1]), assistant]`:
the tool-role message has *zero* earlier assistant messages carrying its
`tool_call_id` — the matching assistant message is appended *after* the
tool results (lines 1346 vs 1409 of `ai_chat_gui.py`), so the claimed
"exactly one earlier assistant message" count is 0, not 1. -/
theorem c1_counterexample :
    ¬ (∀ i : Fin exampleHistory.length, (exampleHistory.get i).role = Role.tool →
        earlierAssistantMatches exampleHistory i.1 ((exampleHistory.get i).tool_call_id.getD "") = 1) := by
  decide

/-- Claim C1, amended: within each tool round, every appended tool-role
message's `tool_call_id` matches, position by position, the `id`s of the
`tool_calls` of the assistant message that the round appends — but that
assistant message *follows* the tool messages in the store instead of
preceding them. -/
theorem c1_amended_matching_assistant_follows (model : List Message → List Delta)
    (ex : String → Jval → Jval) (hist : List Message)
    (hne : (roundAcc model hist).tool_calls_data ≠ []) :
    (runRound model ex hist).hist =
      hist ++ (roundDispatch model ex hist).msgs ++
        (if (roundDispatch model ex hist).tch.isEmpty then []
         else [assistantToolMsg (roundAcc model hist) (roundDispatch model ex hist).tch]) ∧
    (roundDispatch model ex hist).msgs.map Message.tool_call_id =
      (roundDispatch model ex hist).tch.map (fun e => some e.id) ∧
    (∀ m ∈ (roundDispatch model ex hist).msgs, m.role = Role.tool) := by
  refine ⟨?_, dispatch_fold_pairing ex _ DispatchSt.init rfl,
          dispatch_fold_roles ex _ DispatchSt.init (by intro m hm; cases hm)⟩
  have hne' : ¬ ((roundAcc model hist).tool_calls_data.isEmpty = true) := by
    simpa [List.isEmpty_iff] using hne
  simp only [runRound]
  have e1 : (List.foldl applyDelta (StreamAcc.init, []) (model (buildPayload hist))).1 =
      roundAcc model hist := rfl
  rw [e1]
  have e2 : List.foldl (dispatchOne ex) DispatchSt.init (roundAcc model hist).tool_calls_data =
      roundDispatch model ex hist := rfl
  rw [e2]
  rw [if_neg hne']
  dsimp only
  split
  · simp
  · simp [List.append_assoc]

/-- Claim C1, witness for the amended statement, at a model that issues one
tool call. -/
theorem c1_witness :
    (runRound (fun _ => [toolDelta]) exampleExec [Message.user "hi"]).hist =
      [Message.user "hi"] ++ (roundDispatch (fun _ => [toolDelta]) exampleExec [Message.user "hi"]).msgs ++
        (if (roundDispatch (fun _ => [toolDelta]) exampleExec [Message.user "hi"]).tch.isEmpty then []
         else [assistantToolMsg (roundAcc (fun _ => [toolDelta]) [Message.user "hi"])
                (roundDispatch (fun _ => [toolDelta]) exampleExec [Message.user "hi"]).tch]) ∧
    (roundDispatch (fun _ => [toolDelta]) exampleExec [Message.user "hi"]).msgs.map Message.tool_call_id =
      (roundDispatch (fun _ => [toolDelta]) exampleExec [Message.user "hi"]).tch.map (fun e => some e.id) ∧
    (∀ m ∈ (roundDispatch (fun _ => [toolDelta]) exampleExec [Message.user "hi"]).msgs,
      m.role = Role.tool) :=
  c1_amended_matching_assistant_follows (fun _ => [toolDelta]) exampleExec [Message.user "hi"]
    (by decide)

/-- Claim C2 (confirmed): for every single user turn, the
iterate-until-no-tool-calls loop of `_stream_ai_response` performs at most
`max_iterations = 10` rounds, whatever the model and the executor do — the
round counter bounds the loop, and the orchestration contains no other
loop or recursion. -/
theorem c2_round_bound (model : List Message → List Delta) (ex : String → Jval → Jval)
    (hist : List Message) : (runTurn model ex hist).rounds ≤ max_iterations := by
  have h := streamLoop_rounds_le model ex max_iterations hist [] 0
  simpa [runTurn] using h

/-- Claim C3, counterexample.  The cancellation signal is raised
(`stop_streaming`) while a turn is in flight, yet the conversation history
does not stay at its round-start value: the orchestration loop never reads
the flag, so the round runs to completion and appends its messages (here
the history grows from 1 to 4 messages after the signal). -/
theorem c3_counterexample :
    (run_turn_window twoRoundModel exampleExec (stop_streaming streamingWindow)).chat_history.length ≠
      (stop_streaming streamingWindow).chat_history.length := by
  decide

/-- Claim C3, amended: raising the cancellation signal itself never touches
the conversation history (it only resets the busy flag and the UI state,
so content already presented stays delivered), but the orchestration is
entirely insensitive to the signal: a cancelled turn appends exactly the
messages an uncancelled one would, rather than leaving the store unchanged
from the start of the round. -/
theorem c3_amended_signal_ignored (model : List Message → List Delta) (ex : String → Jval → Jval)
    (s : WindowState) :
    (stop_streaming s).chat_history = s.chat_history ∧
    (run_turn_window model ex (stop_streaming s)).chat_history =
      (run_turn_window model ex s).chat_history := by
  have hch : (stop_streaming s).chat_history = s.chat_history := by
    unfold stop_streaming; split <;> rfl
  refine ⟨hch, ?_⟩
  unfold run_turn_window
  simp [hch]

/-- Claim C4 (confirmed): a finalized tool call whose argument text fails
JSON parsing at dispatch time is not executed at all (the executor-call
log is unchanged — in particular the tool is not invoked with substitute
arguments) and nothing is raised; instead a failed result
(`success = False` with a description) is synthesized and appended to the
history as a tool-role message, so the model can react. -/
theorem c4_parse_failure_synthesizes_result (ex : String → Jval → Jval) (st : DispatchSt)
    (tc : ToolCallData) (hn : tc.name ≠ "") (ha : tc.arguments ≠ "")
    (hp : json_loads tc.arguments = none) :
    dispatchOne ex st tc =
      { msgs := st.msgs ++ [toolMessage tc.id parseErrorResult.dumps],
        tch := st.tch ++ [{ id := tc.id, name := tc.name, arguments := tc.arguments }],
        events := st.events ++ [Event.toolResult tc.name parseErrorResult],
        calls := st.calls } ∧
    jGet parseErrorResult "success" = some (Jval.bool false) := by
  constructor
  · unfold dispatchOne
    rw [if_pos ⟨hn, ha⟩, hp]
  · rfl

/-- Claim C4, witness: a concrete unparseable-argument call. -/
theorem c4_witness :
    dispatchOne exampleExec DispatchSt.init
        { id := "call_9", name := "pymol_show", arguments := "\x7bbad" } =
      { msgs := [toolMessage "call_9" parseErrorResult.dumps],
        tch := [{ id := "call_9", name := "pymol_show", arguments := "\x7bbad" }],
        events := [Event.toolResult "pymol_show" parseErrorResult],
        calls := [] } ∧
    jGet parseErrorResult "success" = some (Jval.bool false) := by
  have h := c4_parse_failure_synthesizes_result exampleExec DispatchSt.init
    { id := "call_9", name := "pymol_show", arguments := "\x7bbad" }
    (by decide) (by decide) rfl
  simpa [DispatchSt.init] using h

/-- A stream delta whose single tool call has argument text that never
becomes parseable JSON. -/
def badArgDelta : Delta :=
  { content := "", reasoning_content := "",
    tool_calls := [{ index := 0, id := "call_bad", name := "pymol_show", arguments := "\x7bbad" }] }

def badArgModel : List Message → List Delta :=
  fun msgs => if msgs.length ≤ 2 then [badArgDelta] else [textDelta]

/-- Claim C5, counterexample.  A fragment whose `argument_text` never
reaches parseable JSON by stream end ("\x7bbad") *does* produce a
tool-role message in the conversation history (the synthesized failure
result of C4), contradicting the claim that such fragments are excluded
from dispatch *and produce no tool-role message*. -/
theorem c5_counterexample :
    ¬ (∀ m ∈ (runTurn badArgModel exampleExec [Message.user "hi"]).history,
        ¬ (m.role = Role.tool ∧ m.tool_call_id = some "call_bad")) := by
  decide

/-- Claim C5, amended: the executor is only ever invoked with successfully
parsed JSON arguments; fragments with an empty name or empty argument
text at stream end are dropped silently (no dispatch, no message); but a
fragment with a nonempty name and nonempty *unparseable* argument text is
not silently excluded — it is skipped by the executor yet still yields a
(failed) tool-role message. -/
theorem c5_amended_parse_gate (ex : String → Jval → Jval) (st : DispatchSt) (tc : ToolCallData) :
    ((tc.name = "" ∨ tc.arguments = "") → dispatchOne ex st tc = st) ∧
    (∀ args, json_loads tc.arguments = some args → tc.name ≠ "" → tc.arguments ≠ "" →
      (dispatchOne ex st tc).calls = st.calls ++ [(tc.name, args)] ∧
      (dispatchOne ex st tc).msgs = st.msgs ++ [toolMessage tc.id (ex tc.name args).dumps]) ∧
    (json_loads tc.arguments = none → (dispatchOne ex st tc).calls = st.calls) := by
  refine ⟨?_, ?_, ?_⟩
  · intro h
    have hc : ¬ (tc.name ≠ "" ∧ tc.arguments ≠ "") := by tauto
    simp only [dispatchOne, if_neg hc]
  · intro args hargs hn ha
    unfold dispatchOne
    rw [if_pos (And.intro hn ha), hargs]
    exact ⟨rfl, rfl⟩
  · intro hnone
    by_cases hc : tc.name ≠ "" ∧ tc.arguments ≠ ""
    · simp only [dispatchOne, if_pos hc, hnone]
    · simp only [dispatchOne, if_neg hc]

/-- Claim C5, witness: an empty-argument fragment is dropped outright, and
a parseable one reaches the executor with its parsed arguments. -/
theorem c5_witness :
    dispatchOne exampleExec DispatchSt.init { id := "i1", name := "pymol_show", arguments := "" } =
      DispatchSt.init ∧
    (dispatchOne exampleExec DispatchSt.init
        { id := "i2", name := "pymol_show", arguments := "\x7b\x7d" }).calls =
      [("pymol_show", Jval.obj [])] := by
  constructor
  · exact (c5_amended_parse_gate exampleExec DispatchSt.init
      { id := "i1", name := "pymol_show", arguments := "" }).1 (Or.inr rfl)
  · have h := (c5_amended_parse_gate exampleExec DispatchSt.init
      { id := "i2", name := "pymol_show", arguments := "\x7b\x7d" }).2.1 (Jval.obj []) rfl
      (by decide) (by decide)
    simpa [DispatchSt.init] using h.1

/-- Claim C7 (confirmed): building the outbound payload is read-only with
respect to the store: the payload is the system prompt followed by
normalized *copies* of the stored messages; normalization only fills in
missing `content`/`reasoning_content` (present fields, `tool_calls` and
roles are untouched) and is idempotent, so repeating the snapshot on the
same store yields the same payload shape; and the orchestration only ever
*extends* the stored history — no previously appended message is mutated. -/
theorem c7_snapshot_readonly (model : List Message → List Delta) (ex : String → Jval → Jval)
    (hist : List Message) (m : Message) :
    buildPayload hist = systemMessage :: hist.map normalizeMsg ∧
    normalizeMsg (normalizeMsg m) = normalizeMsg m ∧
    (∀ c, m.content = some c → (normalizeMsg m).content = some c) ∧
    (∀ rc, m.reasoning_content = some rc → (normalizeMsg m).reasoning_content = some rc) ∧
    (normalizeMsg m).tool_calls = m.tool_calls ∧
    (normalizeMsg m).role = m.role ∧
    (∃ t, (runTurn model ex hist).history = hist ++ t) := by
  refine ⟨rfl, normalizeMsg_idem m, ?_, ?_, normalizeMsg_tool_calls m, normalizeMsg_role m, ?_⟩
  · intro c hc; exact normalizeMsg_content_some m c hc
  · intro rc hrc; exact normalizeMsg_reasoning_some m rc hrc
  · exact streamLoop_hist_extends model ex max_iterations hist [] 0

/-- Claim C7, witness at a concrete one-message store. -/
theorem c7_witness :
    buildPayload [Message.user "hi"] = systemMessage :: [normalizeMsg (Message.user "hi")] ∧
    normalizeMsg (normalizeMsg (Message.user "hi")) = normalizeMsg (Message.user "hi") ∧
    (normalizeMsg (Message.user "hi")).content = some "hi" := by
  have h := c7_snapshot_readonly twoRoundModel exampleExec [Message.user "hi"] (Message.user "hi")
  exact ⟨h.1, h.2.1, h.2.2.1 "hi" rfl⟩

/-- Claim C10 (confirmed): every outbound payload starts with exactly one
system-role message, at position 0, and the stored history itself never
holds one: `send_message` appends a user message and the rounds append
only assistant and tool messages. -/
theorem c10_system_discipline (model : List Message → List Delta) (ex : String → Jval → Jval)
    (hist : List Message) (s : WindowState) (text : String)
    (hh : noSystem hist) (hs : noSystem s.chat_history) :
    (buildPayload hist).head? = some systemMessage ∧
    (∀ m ∈ (buildPayload hist).tail, m.role ≠ Role.system) ∧
    noSystem ((send_message s text).chat_history) ∧
    noSystem ((runTurn model ex hist).history) := by
  refine ⟨rfl, ?_, ?_, streamLoop_noSystem model ex max_iterations hist [] 0 hh⟩
  · intro m hm
    simp only [buildPayload, List.tail_cons, List.mem_map] at hm
    obtain ⟨m0, hm0, hrw⟩ := hm
    rw [← hrw, normalizeMsg_role]
    exact hh m0 hm0
  · unfold send_message
    split
    · exact hs
    · split
      · exact hs
      · intro m hm
        rcases List.mem_append.mp hm with hm1 | hm1
        · exact hs m hm1
        · simp only [List.mem_singleton] at hm1; subst hm1; intro hcon; cases hcon

/-- Claim C10, witness at a concrete store and window state. -/
theorem c10_witness :
    (buildPayload [Message.user "hi"]).head? = some systemMessage ∧
    (∀ m ∈ (buildPayload [Message.user "hi"]).tail, m.role ≠ Role.system) ∧
    noSystem ((send_message streamingWindow "hello").chat_history) ∧
    noSystem ((runTurn twoRoundModel exampleExec [Message.user "hi"]).history) :=
  c10_system_discipline twoRoundModel exampleExec [Message.user "hi"] streamingWindow "hello"
    (by unfold noSystem; decide) (by unfold noSystem; decide)

/-- A model that requests a tool call on every round. -/
def alwaysToolModel : List Message → List Delta := fun _ => [toolDelta]

/-- Whether the final Event Sink signal of a turn is the generic
stream-complete callback (`_on_stream_complete`). -/
def lastIsComplete (evs : List Event) : Bool :=
  match evs.getLast? with
  | some Event.streamComplete => true
  | _ => false

/-- When every round requests tools, the loop runs its full fuel and ends
with the generic completion signal. -/
theorem streamLoop_always_loops (model : List Message → List Delta) (ex : String → Jval → Jval)
    (hloop : ∀ h2, (runRound model ex h2).looped = true) :
    ∀ (fuel : Nat) (hist : List Message) (evs : List Event) (r : Nat),
      (streamLoop model ex fuel hist evs r).rounds = r + fuel ∧
      lastIsComplete (streamLoop model ex fuel hist evs r).events = true := by
  intro fuel
  induction fuel with
  | zero =>
    intro hist evs r
    constructor
    · simp [streamLoop]
    · simp [streamLoop, lastIsComplete, List.getLast?_concat]
  | succ f ih =>
    intro hist evs r
    simp only [streamLoop, hloop, if_true]
    obtain ⟨h1, h2⟩ := ih (runRound model ex hist).hist (evs ++ (runRound model ex hist).events) (r + 1)
    exact ⟨by rw [h1]; omega, h2⟩

/-- Claim C8, counterexample.  Eleven-plus consecutive tool-calling
responses: the loop stops after round 10, but the event it then emits is
the very same generic stream-complete signal that a normal two-round turn
ends with — the source has no dedicated truncation notice at all (the
round-limit exit of the `while` falls through to the same
`_on_stream_complete()` as the no-tool-calls `break`), refuting the
claimed dedicated truncation event. -/
theorem c8_counterexample :
    (runTurn alwaysToolModel exampleExec [Message.user "hi"]).rounds = 10 ∧
    lastIsComplete (runTurn alwaysToolModel exampleExec [Message.user "hi"]).events = true ∧
    lastIsComplete (runTurn twoRoundModel exampleExec [Message.user "hi"]).events = true := by
  decide

/-- Claim C8, amended: when the model requests a tool call on every round,
the loop force-stops after exactly `max_iterations = 10` rounds (an
eleventh round never runs) and emits the generic stream-complete signal —
which is distinct from `on_error` but is *not* a dedicated truncation
notice, being the same event normal completion emits. -/
theorem c8_amended (model : List Message → List Delta) (ex : String → Jval → Jval)
    (hist : List Message) (hloop : ∀ h2, (runRound model ex h2).looped = true) :
    (runTurn model ex hist).rounds = max_iterations ∧
    lastIsComplete (runTurn model ex hist).events = true := by
  have h := streamLoop_always_loops model ex hloop max_iterations hist [] 0
  simpa [runTurn] using h

/-- Claim C8, witness for the amended statement under the always-tool
model. -/
theorem c8_witness :
    (runTurn alwaysToolModel exampleExec [Message.user "hi"]).rounds = max_iterations ∧
    lastIsComplete (runTurn alwaysToolModel exampleExec [Message.user "hi"]).events = true :=
  c8_amended alwaysToolModel exampleExec [Message.user "hi"] (fun _ => rfl)

/-- Concatenation of a list of strings (Python `''.join`). -/
def joinStr : List String → String
  | [] => ""
  | s :: rest => s ++ joinStr rest

/-- The last nonempty string of a list, else the default — the value a
replace-on-nonempty assembler ends up with. -/
def lastNonEmptyStr (dflt : String) : List String → String
  | [] => dflt
  | s :: rest => lastNonEmptyStr (if s ≠ "" then s else dflt) rest

/-- The effect of one GUI tool-call delta on an (index 0) slot. -/
def guiStep0 (e : ToolCallData) (f : ToolCallDelta) : ToolCallData :=
  { id := if f.id ≠ "" then f.id else e.id,
    name := if f.name ≠ "" then f.name else e.name,
    arguments := e.arguments ++ f.arguments }

theorem guiIngestTC_single (e : ToolCallData) (f : ToolCallDelta) (hidx : f.index = 0) :
    guiIngestTC [e] f = [guiStep0 e f] := by
  rcases f with ⟨idx, fid, fname, fargs⟩
  simp only at hidx
  subst hidx
  unfold guiIngestTC padTo guiStep0
  by_cases h1 : fid = "" <;> by_cases h2 : fname = "" <;> by_cases h3 : fargs = "" <;>
    simp_all [List.getD, String.append_empty]

theorem guiIngestTC_create (f : ToolCallDelta) (hidx : f.index = 0) :
    guiIngestTC [] f = [guiStep0 ToolCallData.empty f] := by
  rcases f with ⟨idx, fid, fname, fargs⟩
  simp only at hidx
  subst hidx
  unfold guiIngestTC padTo guiStep0 ToolCallData.empty
  by_cases h1 : fid = "" <;> by_cases h2 : fname = "" <;> by_cases h3 : fargs = "" <;>
    simp_all [List.getD, List.replicate, String.append_empty]

theorem gui_fold_single (fs : List ToolCallDelta) :
    ∀ e, (∀ f ∈ fs, f.index = 0) →
      fs.foldl guiIngestTC [e] =
        [{ id := lastNonEmptyStr e.id (fs.map ToolCallDelta.id),
           name := lastNonEmptyStr e.name (fs.map ToolCallDelta.name),
           arguments := e.arguments ++ joinStr (fs.map ToolCallDelta.arguments) }] := by
  induction fs with
  | nil => intro e h; simp [lastNonEmptyStr, joinStr, String.append_empty]
  | cons f rest ih =>
    intro e h
    have hf : f.index = 0 := h f (by simp)
    rw [List.foldl_cons, guiIngestTC_single e f hf,
        ih (guiStep0 e f) (fun g hg => h g (by simp [hg]))]
    simp only [List.map_cons, joinStr, lastNonEmptyStr, guiStep0, String.append_assoc]

def clientFrag (p : String × String) : Jval :=
  Jval.obj [("index", Jval.num "0"),
            ("function", Jval.obj [("name", Jval.str p.1), ("arguments", Jval.str p.2)])]

theorem clientIngestTC_single (e : ClientBufEntry) (p : String × String) :
    clientIngestTC [(0, e)] (clientFrag p) =
      [(0, { e with name := e.name ++ p.1, arguments := e.arguments ++ p.2 })] := rfl

theorem clientIngestTC_create (p : String × String) :
    clientIngestTC [] (clientFrag p) =
      [(0, { id := "", typ := "function", name := p.1, arguments := p.2 })] := rfl

theorem client_fold_single (ps : List (String × String)) :
    ∀ e, (ps.map clientFrag).foldl clientIngestTC [(0, e)] =
      [(0, { e with name := e.name ++ joinStr (ps.map Prod.fst),
                    arguments := e.arguments ++ joinStr (ps.map Prod.snd) })] := by
  induction ps with
  | nil => intro e; simp [joinStr, String.append_empty]
  | cons p rest ih =>
    intro e
    rw [List.map_cons, List.foldl_cons, clientIngestTC_single, ih]
    simp only [List.map_cons, joinStr, String.append_assoc]

def nameFrag (s : String) : ToolCallDelta := { index := 0, id := "", name := s, arguments := "" }

/-- Claim C9, counterexample.  Two name fragments arriving at the same
index in the GUI assembler (`tool_calls_data[index]["name"] = ...`, an
assignment, `ai_chat_gui.py` line 1300): the assembled name is the *last*
fragment, not the concatenation of both. -/
theorem c9_counterexample :
    ¬ (([nameFrag "pym", nameFrag "ol_show"].foldl guiIngestTC []).map ToolCallData.name =
        ["pym" ++ "ol_show"]) := by
  decide

/-- Claim C9, amended: for deltas ingested at one index, `argument_text`
is always the in-order concatenation of the argument fragments — in both
assemblers — and in the `ai_client` assembler the name is concatenated
too; but the GUI assembler *replaces* the name (and id) with the latest
nonempty fragment instead of concatenating. -/
theorem c9_amended (fs : List ToolCallDelta) (ps : List (String × String))
    (hidx : ∀ f ∈ fs, f.index = 0) (hfs : fs ≠ []) (hps : ps ≠ []) :
    (fs.foldl guiIngestTC []).map ToolCallData.arguments =
        [joinStr (fs.map ToolCallDelta.arguments)] ∧
    (fs.foldl guiIngestTC []).map ToolCallData.name =
        [lastNonEmptyStr "" (fs.map ToolCallDelta.name)] ∧
    (ps.map clientFrag).foldl clientIngestTC [] =
      [(0, { id := "", typ := "function", name := joinStr (ps.map Prod.fst),
             arguments := joinStr (ps.map Prod.snd) })] := by
  obtain ⟨f, fs', rfl⟩ := List.exists_cons_of_ne_nil hfs
  obtain ⟨p, ps', rfl⟩ := List.exists_cons_of_ne_nil hps
  have hf : f.index = 0 := hidx f (by simp)
  have hrest : ∀ g ∈ fs', g.index = 0 := fun g hg => hidx g (by simp [hg])
  have hgui : (f :: fs').foldl guiIngestTC [] =
      [{ id := lastNonEmptyStr (guiStep0 ToolCallData.empty f).id (fs'.map ToolCallDelta.id),
         name := lastNonEmptyStr (guiStep0 ToolCallData.empty f).name (fs'.map ToolCallDelta.name),
         arguments := (guiStep0 ToolCallData.empty f).arguments ++
           joinStr (fs'.map ToolCallDelta.arguments) }] := by
    rw [List.foldl_cons, guiIngestTC_create f hf, gui_fold_single fs' _ hrest]
  have hcli : ((p :: ps').map clientFrag).foldl clientIngestTC [] =
      [(0, { id := "", typ := "function",
             name := p.1 ++ joinStr (ps'.map Prod.fst),
             arguments := p.2 ++ joinStr (ps'.map Prod.snd) })] := by
    rw [List.map_cons, List.foldl_cons, clientIngestTC_create, client_fold_single ps']
  refine ⟨?_, ?_, ?_⟩
  · rw [hgui]
    simp [guiStep0, ToolCallData.empty, joinStr, String.empty_append]
  · rw [hgui]
    simp [guiStep0, ToolCallData.empty, lastNonEmptyStr]
  · rw [hcli]
    simp [joinStr]

/-- Claim C9, witness: a two-fragment name and a two-fragment argument
shard at index 0 in both assemblers. -/
theorem c9_witness :
    (([nameFrag "pym", nameFrag "ol_show"].foldl guiIngestTC []).map ToolCallData.arguments =
        [joinStr ([nameFrag "pym", nameFrag "ol_show"].map ToolCallDelta.arguments)]) ∧
    (([nameFrag "pym", nameFrag "ol_show"].foldl guiIngestTC []).map ToolCallData.name =
        [lastNonEmptyStr "" ([nameFrag "pym", nameFrag "ol_show"].map ToolCallDelta.name)]) ∧
    ([("pym", "\x7b\"a\""), ("ol_show", ": 1\x7d")].map clientFrag).foldl clientIngestTC [] =
      [(0, { id := "", typ := "function",
             name := joinStr ([("pym", "\x7b\"a\""), ("ol_show", ": 1\x7d")].map Prod.fst),
             arguments := joinStr ([("pym", "\x7b\"a\""), ("ol_show", ": 1\x7d")].map Prod.snd) })] :=
  c9_amended [nameFrag "pym", nameFrag "ol_show"] [("pym", "\x7b\"a\""), ("ol_show", ": 1\x7d")]
    (by decide) (by decide) (by decide)

theorem decodeLoop_skip (irm : Bool) (st : ClientState) (bad : String) (rest : List String)
    (hb : skippableLine bad) :
    decodeLoop irm st (bad :: rest) = decodeLoop irm st rest := by
  rcases hb with hb | ⟨hd, hp⟩
  · subst hb
    simp [decodeLoop]
  · by_cases hbe : bad = ""
    · subst hbe
      simp [decodeLoop]
    · simp [decodeLoop, hbe, hd, hp]

theorem applyChunkTools_events (delta : Jval) (st : ClientState × List CEvent) :
    (applyChunkTools delta st).2 = st.2 := by
  unfold applyChunkTools
  split
  · split <;> rfl
  · rfl

theorem applyChunkContent_mem (delta : Jval) (st : ClientState × List CEvent) (c : String)
    (hc : ((jGet delta "content").bind jStrOf).getD "" = c) (hcne : c ≠ "") :
    CEvent.content c false ∈ (applyChunkContent delta st).2 := by
  simp only [applyChunkContent, hc]
  rw [if_pos hcne]
  split <;> simp

theorem applyChunk_content_mem (irm : Bool) (st : ClientState) (chunk : Jval) (c : String)
    (hc : chunkContent chunk = c) (hcne : c ≠ "") :
    CEvent.content c false ∈ (applyChunk irm st chunk).2 := by
  unfold applyChunk
  unfold chunkContent at hc
  cases hed : extractDelta chunk with
  | none =>
    rw [hed] at hc
    exact absurd hc.symm (by simpa using hcne)
  | some delta =>
    rw [hed] at hc
    rw [applyChunkTools_events]
    exact applyChunkContent_mem delta _ c hc hcne

theorem decodeLoop_mem_first (irm : Bool) (st : ClientState) (valid : String)
    (rest : List String) (chunk : Jval) (e : CEvent)
    (hv1 : valid ≠ "") (hv2 : stripData valid ≠ "[DONE]")
    (hv3 : json_loads (stripData valid) = some chunk)
    (hmem : e ∈ (applyChunk irm st chunk).2) :
    e ∈ (decodeLoop irm st (valid :: rest)).2.1 := by
  simp only [decodeLoop, if_neg hv1, if_neg hv2, hv3]
  exact List.mem_append_left _ hmem

theorem decodeLoop_rem_nil (irm : Bool) :
    ∀ (lines : List String) (st : ClientState),
      (∀ l ∈ lines, stripData l ≠ "[DONE]") → (decodeLoop irm st lines).2.2 = [] := by
  intro lines
  induction lines with
  | nil => intro st h; rfl
  | cons l rest ih =>
    intro st h
    have hd := h l (by simp)
    by_cases hle : l = ""
    · simp only [decodeLoop, if_pos hle]
      exact ih st (fun x hx => h x (List.mem_cons_of_mem _ hx))
    · simp only [decodeLoop, if_neg hle, if_neg hd]
      cases hpl : json_loads (stripData l) with
      | none => exact ih st (fun x hx => h x (List.mem_cons_of_mem _ hx))
      | some chunk =>
        simp only []
        exact ih _ (fun x hx => h x (List.mem_cons_of_mem _ hx))

/-- Claim C6 (confirmed): a line that is blank, an SSE comment, or malformed
JSON is skipped without terminating the stream — decoding of
`bad :: valid :: rest` proceeds exactly as for `valid :: rest` — the
following valid data line's content fragment still reaches `on_content`,
and, when no `[DONE]` sentinel occurs, the decoder consumes the whole
stream (it stops only at the sentinel or at stream closure). -/
theorem c6_decoder_resilience (irm : Bool) (st : ClientState) (bad valid : String)
    (rest : List String) (chunk : Jval) (c : String)
    (hb : skippableLine bad)
    (hv : json_loads (stripData valid) = some chunk)
    (hc : chunkContent chunk = c) (hcne : c ≠ "")
    (hnd : ∀ l ∈ bad :: valid :: rest, stripData l ≠ "[DONE]") :
    decodeLoop irm st (bad :: valid :: rest) = decodeLoop irm st (valid :: rest) ∧
    CEvent.content c false ∈ (decodeLoop irm st (bad :: valid :: rest)).2.1 ∧
    (decodeLoop irm st (bad :: valid :: rest)).2.2 = [] := by
  have hskip := decodeLoop_skip irm st bad (valid :: rest) hb
  have hvne : valid ≠ "" := by
    intro hv0
    rw [hv0] at hv
    have hnone : json_loads (stripData "") = none := rfl
    rw [hnone] at hv
    exact Option.noConfusion hv
  have hdv : stripData valid ≠ "[DONE]" := hnd valid (by simp)
  refine ⟨hskip, ?_, decodeLoop_rem_nil irm _ st hnd⟩
  rw [hskip]
  exact decodeLoop_mem_first irm st valid rest chunk (CEvent.content c false) hvne hdv hv
    (applyChunk_content_mem irm st chunk c hc hcne)

/-- The malformed line of the spec's scenario. -/
def badLine : String := "data: \x7bnot valid json"

/-- A well-formed SSE data line carrying a content fragment. -/
def goodLine : String := "data: \x7b\"choices\":[\x7b\"delta\":\x7b\"content\":\"hi\"\x7d\x7d]\x7d"

def goodChunk : Jval :=
  Jval.obj [("choices", Jval.arr [Jval.obj [("delta", Jval.obj [("content", Jval.str "hi")])]])]

/-- Claim C6, witness: the spec's scenario, `data: \x7bnot valid json`
followed by a valid content line. -/
theorem c6_witness :
    decodeLoop false ClientState.init [badLine, goodLine] =
      decodeLoop false ClientState.init [goodLine] ∧
    CEvent.content "hi" false ∈ (decodeLoop false ClientState.init [badLine, goodLine]).2.1 ∧
    (decodeLoop false ClientState.init [badLine, goodLine]).2.2 = [] :=
  c6_decoder_resilience false ClientState.init badLine goodLine [] goodChunk "hi"
    (Or.inr ⟨by decide, rfl⟩) rfl rfl (by decide) (by decide)
